import Mathlib

/-!
# Verification of the LifeTime statistics engine and renderers

Shallow embedding of `src/App.jsx`: the pure statistics function
`calculateLifeStats`, the fixed reference tables, the life-grid generator,
the counter-animation sampling loop, and the reveal (viewport-observation)
mount effect.  JavaScript numbers that the program only ever handles as
(mathematical) integers are modelled as `ℤ`/`ℕ`; every `Math.floor` of a
division is made explicit as a floor division.
-/

/-- `const WEEKS_IN_YEAR = 52`. -/
def WEEKS_IN_YEAR : ℕ := 52

/-- `const TOTAL_YEARS = 90`. -/
def TOTAL_YEARS : ℕ := 90

/-- `const TOTAL_WEEKS = TOTAL_YEARS * WEEKS_IN_YEAR`. -/
def TOTAL_WEEKS : ℕ := TOTAL_YEARS * WEEKS_IN_YEAR

/-- One entry of the `US_PRESIDENTS` table: `{ name, start, end }`.
The source field `end` is a Lean keyword, hence the escaped name. -/
structure President where
  name : String
  start : ℤ
  «end» : ℤ
  deriving DecidableEq, Repr

/-- The fixed `US_PRESIDENTS` reference table, in source order. -/
def US_PRESIDENTS : List President :=
  [⟨"Jimmy Carter", 1977, 1981⟩,
   ⟨"Ronald Reagan", 1981, 1989⟩,
   ⟨"George H. W. Bush", 1989, 1993⟩,
   ⟨"Bill Clinton", 1993, 2001⟩,
   ⟨"George W. Bush", 2001, 2009⟩,
   ⟨"Barack Obama", 2009, 2017⟩,
   ⟨"Donald Trump", 2017, 2021⟩,
   ⟨"Joe Biden", 2021, 2025⟩]

/-- The fixed `IPHONE_RELEASES` reference list of years. -/
def IPHONE_RELEASES : List ℤ :=
  [2007, 2008, 2009, 2010, 2011, 2012, 2013, 2014, 2015, 2016, 2017,
   2018, 2019, 2020, 2021, 2022, 2023, 2024]

/-- The two observations the code makes of a JavaScript `Date`:
`getTime()` (epoch milliseconds) and `getFullYear()`.  For an actual
calendar date the year is a monotone function of the milliseconds; where a
claim needs that calendar fact it is taken as an explicit hypothesis
(`birth.year ≤ now.year` whenever `birth.ms ≤ now.ms`). -/
structure JSDate where
  ms : ℤ
  year : ℤ
  deriving DecidableEq, Repr

/-- The outcome of `new Date(birthDateStr)` as the code inspects it:
`empty` is a falsy string (`!birthDateStr`), `invalid` a string whose parse
is `NaN` (`isNaN(birthDate.getTime())`), `valid d` a parseable date. -/
inductive BirthInput where
  | empty
  | invalid
  | valid (d : JSDate)
  deriving DecidableEq, Repr

/-- The full statistics record returned on the normal path. -/
structure LifeStats where
  weeksLived : ℤ
  heartbeats : ℤ
  fullMoons : ℤ
  earthRevolutions : ℤ
  kmTraveledAroundSun : ℤ
  presidentsInLifetime : List String
  mealsEaten : ℤ
  hoursSlept : ℤ
  dreams : ℤ
  peopleMet : ℤ
  iphoneModels : ℤ
  isFuture : Bool
  deriving DecidableEq, Repr

/-- The three terminal shapes of `calculateLifeStats`: `null`, the record
`{ isFuture: true }` carrying no other field, and a full record. -/
inductive StatsResult where
  | nullResult
  | futureOnly
  | stats (s : LifeStats)
  deriving DecidableEq, Repr

/-- The filter predicate of line 41:
`p.start >= birthYear || (p.start < birthYear && p.end > birthYear)`. -/
def presidentPred (birthYear : ℤ) (p : President) : Bool :=
  decide (p.start ≥ birthYear) || (decide (p.start < birthYear) && decide (p.«end» > birthYear))

/-- `US_PRESIDENTS.filter(...).map(p => p.name)` of line 41. -/
def presidentsInLifetimeOf (birthYear : ℤ) : List String :=
  (US_PRESIDENTS.filter (presidentPred birthYear)).map President.name

/-- `Math.min(80000, Math.floor(yearsLived * (80000 / 80)))` of line 47
(`80000 / 80` evaluates to the exact integer `1000`). -/
def peopleMetOf (yearsLived : ℤ) : ℤ :=
  min 80000 (yearsLived * (80000 / 80))

/-- `calculateLifeStats` (lines 22-54), with the ambient `new Date()`
passed explicitly.  All `Math.floor` of divisions become `Int.fdiv`
(floor division); `daysLived / 29.53` is the exact rational
`daysLived * 100 / 2953`, and `24 * 60 * 60 * 29.78` is the exact integer
`2572992`. -/
def calculateLifeStats (input : BirthInput) (now : JSDate) : StatsResult :=
  match input with
  | .empty => .nullResult
  | .invalid => .nullResult
  | .valid birthDate =>
    let msLived := now.ms - birthDate.ms
    if msLived < 0 then .futureOnly
    else
      let daysLived := Int.fdiv msLived (1000 * 60 * 60 * 24)
      let weeksLived := Int.fdiv daysLived 7
      let birthYear := birthDate.year
      let yearsLived := now.year - birthYear
      let heartbeats := daysLived * (24 * 60 * 70)
      let fullMoons := Int.fdiv (daysLived * 100) 2953
      let earthRevolutions := yearsLived
      let kmTraveledAroundSun := daysLived * 2572992
      let presidentsInLifetime := presidentsInLifetimeOf birthYear
      let mealsEaten := daysLived * 3
      let hoursSlept := yearsLived * 365 * 8
      let dreams := hoursSlept * 2
      let peopleMet := peopleMetOf yearsLived
      let iphoneModels := ((IPHONE_RELEASES.filter (fun y => decide (y ≥ birthYear))).length : ℤ)
      .stats
        { weeksLived := weeksLived
          heartbeats := heartbeats
          fullMoons := fullMoons
          earthRevolutions := earthRevolutions
          kmTraveledAroundSun := kmTraveledAroundSun
          presidentsInLifetime := presidentsInLifetime
          mealsEaten := mealsEaten
          hoursSlept := hoursSlept
          dreams := dreams
          peopleMet := peopleMet
          iphoneModels := iphoneModels
          isFuture := false }

/-- Evaluation of the non-future branch of `calculateLifeStats` to an
explicit record, shared by the statistics theorems below. -/
theorem calculateLifeStats_valid_eq (b now : JSDate) (h : ¬ now.ms - b.ms < 0) :
    calculateLifeStats (.valid b) now = .stats
      { weeksLived := Int.fdiv (Int.fdiv (now.ms - b.ms) (1000 * 60 * 60 * 24)) 7
        heartbeats := Int.fdiv (now.ms - b.ms) (1000 * 60 * 60 * 24) * (24 * 60 * 70)
        fullMoons := Int.fdiv (Int.fdiv (now.ms - b.ms) (1000 * 60 * 60 * 24) * 100) 2953
        earthRevolutions := now.year - b.year
        kmTraveledAroundSun := Int.fdiv (now.ms - b.ms) (1000 * 60 * 60 * 24) * 2572992
        presidentsInLifetime := presidentsInLifetimeOf b.year
        mealsEaten := Int.fdiv (now.ms - b.ms) (1000 * 60 * 60 * 24) * 3
        hoursSlept := (now.year - b.year) * 365 * 8
        dreams := (now.year - b.year) * 365 * 8 * 2
        peopleMet := peopleMetOf (now.year - b.year)
        iphoneModels := ((IPHONE_RELEASES.filter (fun y => decide (y ≥ b.year))).length : ℤ)
        isFuture := false } := by
  simp only [calculateLifeStats]
  rw [if_neg h]

/-- C1: for a birth date strictly in the past, the returned record has
`weeksLived = floor(daysLived / 7)` with
`daysLived = floor((now - birthDate) / 1 day)`, and it is non-negative. -/
theorem weeksLived_floor_days_div_seven (b now : JSDate) (h : b.ms < now.ms) :
    ∃ s, calculateLifeStats (.valid b) now = .stats s ∧
      s.weeksLived = Int.fdiv (Int.fdiv (now.ms - b.ms) 86400000) 7 ∧
      0 ≤ s.weeksLived := by
  refine ⟨_, calculateLifeStats_valid_eq b now (by omega), rfl, ?_⟩
  have h0 : (0 : ℤ) ≤ now.ms - b.ms := by omega
  have h1 : (0 : ℤ) ≤ Int.fdiv (now.ms - b.ms) (1000 * 60 * 60 * 24) :=
    Int.fdiv_nonneg h0 (by norm_num)
  exact Int.fdiv_nonneg h1 (by norm_num)

/-- Witness for C1 at a concrete past date. -/
theorem weeksLived_floor_days_div_seven_witness :
    ∃ s, calculateLifeStats (.valid ⟨0, 1970⟩) ⟨1209600000, 1970⟩ = .stats s ∧
      s.weeksLived = Int.fdiv (Int.fdiv ((1209600000 : ℤ) - 0) 86400000) 7 ∧
      0 ≤ s.weeksLived :=
  weeksLived_floor_days_div_seven ⟨0, 1970⟩ ⟨1209600000, 1970⟩ (by decide)

/-- C3: a birth date strictly after the current instant yields the record
carrying only `isFuture = true`; a birth date at or before the current
instant yields a full record with `isFuture = false`. -/
theorem future_date_dichotomy (b now : JSDate) :
    (now.ms < b.ms → calculateLifeStats (.valid b) now = .futureOnly) ∧
    (b.ms ≤ now.ms →
      ∃ s, calculateLifeStats (.valid b) now = .stats s ∧ s.isFuture = false) := by
  constructor
  · intro h
    simp only [calculateLifeStats]
    rw [if_pos (by omega)]
  · intro h
    exact ⟨_, calculateLifeStats_valid_eq b now (by omega), rfl⟩

/-- Witness for C3: one day in the future, and exactly the current instant. -/
theorem future_date_dichotomy_witness :
    calculateLifeStats (.valid ⟨86400000, 1970⟩) ⟨0, 1970⟩ = .futureOnly ∧
    ∃ s, calculateLifeStats (.valid ⟨0, 1970⟩) ⟨0, 1970⟩ = .stats s ∧
      s.isFuture = false :=
  ⟨(future_date_dichotomy ⟨86400000, 1970⟩ ⟨0, 1970⟩).1 (by decide),
   (future_date_dichotomy ⟨0, 1970⟩ ⟨0, 1970⟩).2 (by decide)⟩

/-- C4: `calculateLifeStats` is a total function (the embedding is a plain
`def`, so it never throws); an empty or unparseable birth-date string
yields `null`, and every parseable input yields a record (either the
future sentinel or a full record). -/
theorem calculateLifeStats_total (now : JSDate) :
    calculateLifeStats .empty now = .nullResult ∧
    calculateLifeStats .invalid now = .nullResult ∧
    ∀ b, calculateLifeStats (.valid b) now = .futureOnly ∨
      ∃ s, calculateLifeStats (.valid b) now = .stats s := by
  refine ⟨rfl, rfl, fun b => ?_⟩
  by_cases h : now.ms - b.ms < 0
  · left
    simp only [calculateLifeStats]
    rw [if_pos h]
  · right
    exact ⟨_, calculateLifeStats_valid_eq b now h⟩

/-- If, along a list, an element satisfying `p` is never followed by one
that fails `p`, then filtering by `p` keeps a suffix of the list. -/
theorem filter_isSuffix_of_forward {α : Type} (p : α → Bool) :
    ∀ l : List α, l.Pairwise (fun a b => p a = true → p b = true) →
      l.filter p <:+ l := by
  intro l
  induction l with
  | nil => intro _; simp
  | cons a t ih =>
    intro h
    rw [List.pairwise_cons] at h
    by_cases hpa : p a = true
    · rw [List.filter_cons_of_pos hpa,
        List.filter_eq_self.mpr (fun b hb => h.1 b hb hpa)]
    · rw [List.filter_cons_of_neg (by simpa using hpa)]
      exact (ih h.2).trans (List.suffix_cons a t)

/-- In the `US_PRESIDENTS` table, once the line-41 predicate holds of an
entry it holds of every later entry (term ends strictly increase). -/
theorem us_presidents_pred_forward (y : ℤ) :
    US_PRESIDENTS.Pairwise
      (fun a b => presidentPred y a = true → presidentPred y b = true) := by
  simp only [US_PRESIDENTS, presidentPred, List.pairwise_cons, List.mem_cons,
    List.mem_singleton, List.not_mem_nil, forall_eq_or_imp, forall_eq,
    Bool.or_eq_true, Bool.and_eq_true, decide_eq_true_eq, ge_iff_le,
    gt_iff_lt, List.Pairwise.nil, false_implies, forall_const, and_true,
    true_and, implies_true]
  omega

/-- C2: the presidents list preserves the chronological order of the
fixed table (it is a sublist of the table's name sequence), a table entry
is kept exactly when `start ≥ birthYear ∨ (start < birthYear ∧
end > birthYear)`, and the record field is exactly this filtered list. -/
theorem presidents_order_and_membership (y : ℤ) :
    List.Sublist (presidentsInLifetimeOf y) (US_PRESIDENTS.map President.name) ∧
    (∀ p, p ∈ US_PRESIDENTS.filter (presidentPred y) ↔
      p ∈ US_PRESIDENTS ∧ (p.start ≥ y ∨ (p.start < y ∧ p.«end» > y))) ∧
    (∀ (b now : JSDate) (s : LifeStats), b.year = y →
      calculateLifeStats (.valid b) now = .stats s →
      s.presidentsInLifetime = presidentsInLifetimeOf y) := by
  refine ⟨(List.filter_sublist _).map President.name, fun p => ?_, ?_⟩
  · rw [List.mem_filter]
    simp [presidentPred]
  · intro b now s hby h
    by_cases hlt : now.ms - b.ms < 0
    · have hfut : calculateLifeStats (.valid b) now = .futureOnly := by
        simp only [calculateLifeStats]
        rw [if_pos hlt]
      rw [hfut] at h
      cases h
    · rw [calculateLifeStats_valid_eq b now hlt] at h
      cases h
      rw [hby]

/-- Witness for C2 at birth year 2000 and a concrete record. -/
theorem presidents_order_and_membership_witness :
    (⟨"Barack Obama", 2009, 2017⟩ : President) ∈
      US_PRESIDENTS.filter (presidentPred 2000) :=
  ((presidents_order_and_membership 2000).2.1 ⟨"Barack Obama", 2009, 2017⟩).mpr
    ⟨by decide, Or.inl (by norm_num)⟩

/-- C10: for every birth year the presidents list is a contiguous suffix
of the table's name sequence: once an entry is included, every later
entry is too. -/
theorem presidents_contiguous_suffix (y : ℤ) :
    presidentsInLifetimeOf y <:+ US_PRESIDENTS.map President.name :=
  (filter_isSuffix_of_forward (presidentPred y) US_PRESIDENTS
    (us_presidents_pred_forward y)).map President.name

/-- One grid cell as classified on lines 118-121. -/
structure GridUnit where
  isLived : Bool
  isDecadeMarker : Bool
  deriving DecidableEq, Repr

/-- The classification of cell `i` in `LifeGrid` (lines 118-121):
`isLived = i < weeksLived`, `year = floor(i / WEEKS_IN_YEAR)` and
`isDecadeMarker = (year + 1) % 10 === 0 && i % WEEKS_IN_YEAR === WEEKS_IN_YEAR - 1`. -/
def gridUnit (weeksLived : ℤ) (i : ℕ) : GridUnit :=
  { isLived := decide ((i : ℤ) < weeksLived)
    isDecadeMarker :=
      decide ((i / WEEKS_IN_YEAR + 1) % 10 = 0) &&
        decide (i % WEEKS_IN_YEAR = WEEKS_IN_YEAR - 1) }

/-- The `grid` array of `LifeGrid`:
`Array.from({length: TOTAL_WEEKS}, (_, i) => ...)`. -/
def lifeGrid (weeksLived : ℤ) : List GridUnit :=
  (List.range TOTAL_WEEKS).map (gridUnit weeksLived)

/-- C7: for every `weeksLived` (clamping is unnecessary even past the
grid's capacity) the grid has exactly 4680 units, unit `i` is lived iff
`i < weeksLived`, and unit `i` is a decade boundary iff `(i+1) % 520 = 0`,
i.e. exactly at indices 519, 1039, 1559, .... -/
theorem lifeGrid_units (w : ℤ) :
    (lifeGrid w).length = 4680 ∧
    ∀ (i : ℕ) (h : i < (lifeGrid w).length),
      (((lifeGrid w).get ⟨i, h⟩).isLived = true ↔ (i : ℤ) < w) ∧
      (((lifeGrid w).get ⟨i, h⟩).isDecadeMarker = true ↔ (i + 1) % 520 = 0) := by
  have hlen : (lifeGrid w).length = 4680 := by
    simp only [lifeGrid, List.length_map, List.length_range]
    rfl
  refine ⟨hlen, fun i h => ?_⟩
  have hget : (lifeGrid w).get ⟨i, h⟩ = gridUnit w i := by
    rw [List.get_eq_getElem]
    simp only [lifeGrid, List.getElem_map, List.getElem_range]
  rw [hget]
  constructor
  · simp [gridUnit]
  · simp only [gridUnit, Bool.and_eq_true, decide_eq_true_eq, WEEKS_IN_YEAR]
    omega

/-- Witness for C7 at `weeksLived = 130` and index 519. -/
theorem lifeGrid_units_witness :
    ((((lifeGrid 130).get ⟨519, by
        rw [(lifeGrid_units 130).1]; omega⟩).isLived = true ↔ (519 : ℤ) < 130) ∧
     (((lifeGrid 130).get ⟨519, by
        rw [(lifeGrid_units 130).1]; omega⟩).isDecadeMarker = true ↔
        (519 + 1) % 520 = 0)) :=
  (lifeGrid_units 130).2 519 (by rw [(lifeGrid_units 130).1]; omega)

/-- C8: the record's `peopleMet` equals
`min(80000, floor(yearsLived * 80000 / 80))`, is monotone in
`yearsLived`, and never exceeds 80000. -/
theorem peopleMet_capped_ramp (b now : JSDate) (h : b.ms ≤ now.ms) :
    (∃ s, calculateLifeStats (.valid b) now = .stats s ∧
      s.peopleMet = min 80000 ((now.year - b.year) * 1000)) ∧
    (∀ y1 y2 : ℤ, y1 ≤ y2 → peopleMetOf y1 ≤ peopleMetOf y2) ∧
    (∀ y : ℤ, peopleMetOf y ≤ 80000) := by
  refine ⟨⟨_, calculateLifeStats_valid_eq b now (by omega), ?_⟩, ?_, ?_⟩
  · show peopleMetOf (now.year - b.year) = _
    simp only [peopleMetOf]
    norm_num
  · intro y1 y2 hy
    simp only [peopleMetOf]
    omega
  · intro y
    exact min_le_left _ _

/-- Witness for C8 at a concrete 20-year span. -/
theorem peopleMet_capped_ramp_witness :
    (∃ s, calculateLifeStats (.valid ⟨0, 1970⟩) ⟨0, 1990⟩ = .stats s ∧
      s.peopleMet = min 80000 (((1990 : ℤ) - 1970) * 1000)) ∧
    peopleMetOf 10 ≤ peopleMetOf 20 :=
  ⟨(peopleMet_capped_ramp ⟨0, 1970⟩ ⟨0, 1990⟩ (by decide)).1,
   (peopleMet_capped_ramp ⟨0, 1970⟩ ⟨0, 1990⟩ (by decide)).2.1 10 20 (by decide)⟩

/-- C9: for a non-future valid birth date (with the calendar fact that the
birth year is then at most the current year), every numeric field of the
returned record is non-negative. -/
theorem stats_fields_nonneg (b now : JSDate) (hms : b.ms ≤ now.ms)
    (hyr : b.year ≤ now.year) :
    ∃ s, calculateLifeStats (.valid b) now = .stats s ∧
      0 ≤ s.weeksLived ∧ 0 ≤ s.heartbeats ∧ 0 ≤ s.fullMoons ∧
      0 ≤ s.kmTraveledAroundSun ∧ 0 ≤ s.mealsEaten ∧ 0 ≤ s.hoursSlept ∧
      0 ≤ s.dreams ∧ 0 ≤ s.peopleMet ∧ 0 ≤ s.iphoneModels ∧
      0 ≤ s.earthRevolutions := by
  have hd : (0 : ℤ) ≤ Int.fdiv (now.ms - b.ms) (1000 * 60 * 60 * 24) :=
    Int.fdiv_nonneg (by omega) (by norm_num)
  have hy : (0 : ℤ) ≤ now.year - b.year := by omega
  refine ⟨_, calculateLifeStats_valid_eq b now (by omega),
    Int.fdiv_nonneg hd (by norm_num),
    mul_nonneg hd (by norm_num),
    Int.fdiv_nonneg (mul_nonneg hd (by norm_num)) (by norm_num),
    mul_nonneg hd (by norm_num),
    mul_nonneg hd (by norm_num),
    mul_nonneg (mul_nonneg hy (by norm_num)) (by norm_num),
    mul_nonneg (mul_nonneg (mul_nonneg hy (by norm_num)) (by norm_num)) (by norm_num),
    ?_, Int.natCast_nonneg _, hy⟩
  show (0 : ℤ) ≤ peopleMetOf (now.year - b.year)
  simp only [peopleMetOf]
  exact le_min (by norm_num) (mul_nonneg hy (by norm_num))

/-- Witness for C9 at a concrete two-week-old date. -/
theorem stats_fields_nonneg_witness :
    ∃ s, calculateLifeStats (.valid ⟨0, 1970⟩) ⟨1209600000, 1970⟩ = .stats s ∧
      0 ≤ s.weeksLived ∧ 0 ≤ s.heartbeats ∧ 0 ≤ s.fullMoons ∧
      0 ≤ s.kmTraveledAroundSun ∧ 0 ≤ s.mealsEaten ∧ 0 ≤ s.hoursSlept ∧
      0 ≤ s.dreams ∧ 0 ≤ s.peopleMet ∧ 0 ≤ s.iphoneModels ∧
      0 ≤ s.earthRevolutions :=
  stats_fields_nonneg ⟨0, 1970⟩ ⟨1209600000, 1970⟩ (by decide) (by decide)

/-- `const duration = 1500` (line 74). -/
def animDuration : ℕ := 1500

/-- One sample of the `animate` frame callback (lines 77-81):
`progress = Math.min(elapsed / duration, 1)`,
`currentVal = Math.floor(progress * (end - start) + start)` with
`start = 0` and `end = target`. -/
def animSample (target elapsed : ℕ) : ℕ :=
  if animDuration ≤ elapsed then target else elapsed * target / animDuration

/-- The values handed to `setDisplayValue` by the frame chain, given the
elapsed times at which frames arrive: each frame emits its sample; while
`progress < 1` another frame is requested, otherwise `end` is emitted once
more and the chain stops (lines 77-89). -/
def animateRun (target : ℕ) : List ℕ → List ℕ
  | [] => []
  | t :: ts =>
    animSample target t ::
      (if t < animDuration then animateRun target ts else [target])

/-- The displayed-value sequence of `AnimatedNumber`: the initial
`useState(0)` value, then, unless `start === end` (i.e. the target is 0,
line 72), the animation emissions. -/
def displaySeq (target : ℕ) (times : List ℕ) : List ℕ :=
  0 :: (if target = 0 then [] else animateRun target times)

/-- A sampled value never exceeds the target. -/
theorem animSample_le_target (target t : ℕ) : animSample target t ≤ target := by
  unfold animSample
  split
  · exact le_refl _
  · calc t * target / animDuration ≤ animDuration * target / animDuration :=
        Nat.div_le_div_right (Nat.mul_le_mul_right _ (by omega))
      _ = target := Nat.mul_div_cancel_left _ (by norm_num [animDuration])

/-- Sampling is monotone in elapsed time. -/
theorem animSample_mono (target : ℕ) {t1 t2 : ℕ} (h : t1 ≤ t2) :
    animSample target t1 ≤ animSample target t2 := by
  unfold animSample
  split_ifs with h1 h2 h2
  · exact le_refl _
  · omega
  · calc t1 * target / animDuration ≤ animDuration * target / animDuration :=
        Nat.div_le_div_right (Nat.mul_le_mul_right _ (by omega))
      _ = target := Nat.mul_div_cancel_left _ (by norm_num [animDuration])
  · exact Nat.div_le_div_right (Nat.mul_le_mul_right _ h)

/-- Along non-decreasing frame times the emissions are non-decreasing. -/
theorem animateRun_chain (target : ℕ) :
    ∀ times : List ℕ, List.Chain' (· ≤ ·) times →
      List.Chain' (· ≤ ·) (animateRun target times) := by
  intro times
  induction times with
  | nil => intro _; simp [animateRun]
  | cons t ts ih =>
    intro h
    simp only [animateRun]
    rw [List.chain'_cons']
    constructor
    · intro b hb
      by_cases ht : t < animDuration
      · rw [if_pos ht] at hb
        rcases ts with _ | ⟨t2, ts2⟩
        · simp [animateRun] at hb
        · simp only [animateRun, List.head?] at hb
          cases hb
          exact animSample_mono target (List.chain'_cons.mp h).1
      · rw [if_neg ht] at hb
        simp only [List.head?] at hb
        cases hb
        exact animSample_le_target target t
    · by_cases ht : t < animDuration
      · rw [if_pos ht]
        exact ih h.tail
      · rw [if_neg ht]
        simp

/-- Every emission is at most the target. -/
theorem animateRun_mem_le (target : ℕ) :
    ∀ times : List ℕ, ∀ v ∈ animateRun target times, v ≤ target := by
  intro times
  induction times with
  | nil => simp [animateRun]
  | cons t ts ih =>
    intro v hv
    simp only [animateRun, List.mem_cons] at hv
    rcases hv with rfl | hv
    · exact animSample_le_target target t
    · by_cases ht : t < animDuration
      · rw [if_pos ht] at hv
        exact ih v hv
      · rw [if_neg ht] at hv
        simp at hv
        omega

/-- Once a frame at or past the duration arrives, the run ends exactly on
the target. -/
theorem animateRun_getLast (target : ℕ) :
    ∀ times : List ℕ, (∃ t ∈ times, animDuration ≤ t) →
      (animateRun target times).getLast? = some target := by
  intro times
  induction times with
  | nil => rintro ⟨u, hu, _⟩; simp at hu
  | cons t ts ih =>
    rintro ⟨u, hu, hDu⟩
    simp only [animateRun]
    by_cases ht : t < animDuration
    · rw [if_pos ht]
      have hu' : u ∈ ts := by
        rcases List.mem_cons.mp hu with rfl | h'
        · omega
        · exact h'
      rcases ts with _ | ⟨t2, ts2⟩
      · simp at hu'
      · rw [show animateRun target (t2 :: ts2) =
            animSample target t2 ::
              (if t2 < animDuration then animateRun target ts2 else [target]) from rfl,
          List.getLast?_cons_cons]
        have := ih ⟨u, hu', hDu⟩
        simpa [animateRun] using this
    · rw [if_neg ht]
      simp

/-- C6: for a positive target and non-decreasing frame times, the
displayed sequence is monotonically non-decreasing, never exceeds the
target (in particular it starts at a value at most the target), and once
a frame at or past the fixed 1500 ms duration arrives the final value is
exactly the target; for target 0 the sequence is the immediate `[0]` and
no animation is run. -/
theorem animatedNumber_emissions (target : ℕ) (times : List ℕ)
    (hpos : 0 < target) (hchain : List.Chain' (· ≤ ·) times) :
    List.Chain' (· ≤ ·) (displaySeq target times) ∧
    (∀ v ∈ displaySeq target times, v ≤ target) ∧
    ((∃ t ∈ times, animDuration ≤ t) →
      (displaySeq target times).getLast? = some target) ∧
    (∀ ts : List ℕ, displaySeq 0 ts = [0]) := by
  have htne : target ≠ 0 := by omega
  refine ⟨?_, ?_, ?_, fun ts => by simp [displaySeq]⟩
  · simp only [displaySeq, if_neg htne]
    rw [List.chain'_cons']
    exact ⟨fun b _ => Nat.zero_le b, animateRun_chain target times hchain⟩
  · intro v hv
    simp only [displaySeq, if_neg htne, List.mem_cons] at hv
    rcases hv with rfl | hv
    · exact Nat.zero_le _
    · exact animateRun_mem_le target times v hv
  · rintro ⟨u, hu, hDu⟩
    simp only [displaySeq, if_neg htne]
    rcases times with _ | ⟨t, ts⟩
    · simp at hu
    · rw [show animateRun target (t :: ts) =
          animSample target t ::
            (if t < animDuration then animateRun target ts else [target]) from rfl,
        List.getLast?_cons_cons]
      have := animateRun_getLast target (t :: ts) ⟨u, hu, hDu⟩
      simpa [animateRun] using this

/-- Witness for C6: target 5 with frames at 500, 1000 and 1600 ms. -/
theorem animatedNumber_emissions_witness :
    List.Chain' (· ≤ ·) (displaySeq 5 [500, 1000, 1600]) ∧
    (displaySeq 5 [500, 1000, 1600]).getLast? = some 5 :=
  ⟨(animatedNumber_emissions 5 [500, 1000, 1600] (by decide)
      (by simp [List.chain'_cons])).1,
   (animatedNumber_emissions 5 [500, 1000, 1600] (by decide)
      (by simp [List.chain'_cons])).2.2.1 ⟨1600, by decide, by decide⟩⟩

/-- What the mount effect installs for a reveal-gated element. -/
inductive RevealOutcome where
  | triggered
  | observing
  | crashed
  deriving DecidableEq, Repr

/-- Mount effect of `AnimatedNumber` (lines 66-98) and `StatCard`
(lines 144-158): both evaluate `new IntersectionObserver(...)`
unconditionally before observing the element.  There is no capability
check, no try/catch and no immediate-trigger fallback, so when the
viewport-observation capability is missing the constructor reference
throws inside the effect and no trigger is ever installed. -/
def revealMount (observerAvailable : Bool) : RevealOutcome :=
  if observerAvailable then .observing else .crashed

/-- C5 fails on the code: with the observation capability unavailable the
mount effect crashes (the element is never triggered, not
immediately-triggered as the spec requires). -/
theorem revealMount_unavailable_crashes :
    revealMount false = RevealOutcome.crashed := rfl
